import Mathlib

/-!
Shallow embedding of the `SuiBlockchainService` core
(`src/services/sui-blockchain.ts` of megalinker/suimiddleman) and proofs
of the specification claims about it.

Conventions of the embedding:
* JavaScript `number` arithmetic on trade amounts is modelled by exact
  rational arithmetic over `ℚ` (the amounts handled by the service are
  integers below 2^53 scaled by powers of ten, where JS `number`
  arithmetic agrees with the exact value on the inputs the claims
  exercise).
* `BigInt(s)` / `parseInt(s)` / `parseFloat(s)` on the decimal digit
  strings carried by events and adapters are modelled by `parseDec`.
* Network effects (RPC queries, dry-run simulations, submissions) are
  modelled by passing the response of the external collaborator as an
  explicit argument (an `Except`/`Option` value), so that the service
  functions themselves stay pure and every control path is visible.
* JavaScript truthiness tests on optional strings (`if (!x)`, `x ? a : b`,
  `x && y`) are modelled by `jsTruthy`, which is false exactly on a
  missing value and on the empty string.
-/

/-- Truthiness of an optional JavaScript string: `undefined` and the empty
string are falsy, every other string is truthy. -/
def jsTruthy : Option String → Bool
  | none => false
  | some s => !(s == "")

/-- Accumulating value of a decimal digit string. -/
def decValAux (acc : Nat) : List Char → Nat
  | [] => acc
  | c :: rest => decValAux (acc * 10 + (c.toNat - 48)) rest

/-- Numeric value of a decimal digit string, as read by `BigInt(s)`,
`parseInt(s, 10)` and `parseFloat(s)` on the unsigned decimal strings the
service handles (amounts, prices, supplies). The claims only exercise
strings of decimal digits, on which this agrees with the JavaScript
parses; its value on other strings is never relied upon. -/
def parseDec (s : String) : Nat := decValAux 0 s.data

/-- Substring test, as JavaScript `hay.includes(needle)`. -/
def containsSubstr (hay needle : String) : Bool :=
  decide (needle.data <:+: hay.data)

/-- Rounding to the nearest integer with ties toward positive infinity,
the behaviour of JavaScript `Math.round`. -/
def jsRound (q : ℚ) : ℤ := ⌊q + 1/2⌋

/-- Rounding of a rational to 6 fractional decimal digits, the
`Math.round(x * 1_000_000) / 1_000_000` pattern used by `calculateVolume`. -/
def round6 (q : ℚ) : ℚ := (jsRound (q * 1000000) : ℚ) / 1000000

/-- Parsed payload of a protocol `TradeEvent` (`TradeEventData` in
`types.ts`). Only the fields read by the service functions under
verification are modelled; the remaining string fields of the interface
(`coin_x_type`, `fee_amount`, `price`, ...) are never inspected by them. -/
structure TradeEventData where
  is_buy : Bool
  x_amount : String
  y_amount : String
  trader : String
  bonding_curve_id : String
  deriving DecidableEq, Repr

/-- A raw event record as returned by the event query; the service reads
its `parsedJson` field. -/
structure SuiEvent where
  parsedJson : TradeEventData
  deriving DecidableEq, Repr

/-! ## Event aggregation: `calculateVolume` -/

/-- The human-readable volume of one event: its base amount `x_amount`
scaled by the `SUI_DECIMALS_FACTOR` of 10^9. -/
def humanVol (event : SuiEvent) : ℚ :=
  (parseDec event.parsedJson.x_amount : ℚ) / 1000000000

/-- One step of the `events.forEach` accumulation in `calculateVolume`:
the accumulator is (totalVolume, buyVolume, sellVolume). -/
def volumeStep (acc : ℚ × ℚ × ℚ) (event : SuiEvent) : ℚ × ℚ × ℚ :=
  if event.parsedJson.is_buy then
    (acc.1 + humanVol event, acc.2.1 + humanVol event, acc.2.2)
  else
    (acc.1 + humanVol event, acc.2.1, acc.2.2 + humanVol event)

/-- The accumulated (totalVolume, buyVolume, sellVolume) before final
rounding, as computed by the `forEach` loop of `calculateVolume`. -/
def volumeTotals (events : List SuiEvent) : ℚ × ℚ × ℚ :=
  events.foldl volumeStep (0, 0, 0)

/-- Result record of `calculateVolume`. -/
structure VolumeResult where
  totalVolume : ℚ
  buyVolume : ℚ
  sellVolume : ℚ
  transactionCount : Nat
  deriving DecidableEq, Repr

/-- Embedding of `SuiBlockchainService.calculateVolume`. -/
def calculateVolume (events : List SuiEvent) : VolumeResult :=
  let t := volumeTotals events
  { totalVolume := round6 t.1
    buyVolume := round6 t.2.1
    sellVolume := round6 t.2.2
    transactionCount := events.length }

/-! ## Event aggregation: `calculateHolders` -/

/-- Signed balance delta of one event: `+parseInt(y_amount)` on a buy,
`-parseInt(y_amount)` on a sell. -/
def eventDelta (event : SuiEvent) : ℤ :=
  if event.parsedJson.is_buy then (parseDec event.parsedJson.y_amount : ℤ)
  else -(parseDec event.parsedJson.y_amount : ℤ)

/-- Update of the `balances` object: add `delta` to the entry of `k`,
inserting the key at the end (JavaScript object insertion order) when it
is new. -/
def updateBalance (bal : List (String × ℤ)) (k : String) (delta : ℤ) :
    List (String × ℤ) :=
  match bal with
  | [] => [(k, delta)]
  | (k0, v) :: rest =>
    if k0 = k then (k0, v + delta) :: rest
    else (k0, v) :: updateBalance rest k delta

/-- The `balances` map built by `calculateHolders`: the newest-first input
is reversed to chronological order and replayed. -/
def replayBalances (events : List SuiEvent) : List (String × ℤ) :=
  events.reverse.foldl
    (fun bal event => updateBalance bal event.parsedJson.trader (eventDelta event)) []

/-- Embedding of `SuiBlockchainService.calculateHolders`: only entries
with strictly positive final balance are kept. -/
def calculateHolders (events : List SuiEvent) : List (String × ℤ) :=
  (replayBalances events).filter (fun p => 0 < p.2)

/-- First-match lookup in an association list, as JavaScript property
access on the `balances`/`holders` objects. -/
def lookupKey (bal : List (String × ℤ)) (k : String) : Option ℤ :=
  match bal with
  | [] => none
  | (k0, v) :: rest => if k0 = k then some v else lookupKey rest k

/-! ## `parseBondingCurveState` -/

/-- Embedding of `SuiBlockchainService.parseBondingCurveState`. The raw
dev-inspect return payload is a possibly missing list of
(bytes, type-tag) pairs; the discriminant is the first byte of the first
pair. -/
def parseBondingCurveState : Option (List (List Nat × String)) → String
  | none => "Unknown"
  | some [] => "Unknown"
  | some ((bytes, _) :: _) =>
    match bytes with
    | [] => "Unknown"
    | b :: _ =>
      if b = 0 then "Active"
      else if b = 1 then "Paused"
      else if b = 2 then "Completed"
      else if b = 3 then "Graduated"
      else "Unknown"

/-! ## `getTradeEvents` -/

/-- Embedding of `SuiBlockchainService.getTradeEvents`. `poolsPackageId`
is the optional `POOLS_PACKAGE_ID` configuration; `queryResult` is the
response of the external `queryEvents` call (`.error` when that call
throws, `.ok` with the newest-first window `events.data` otherwise);
`bondingCurveId` is the optional curve filter. An `.error` result models
the function throwing. -/
def getTradeEvents (poolsPackageId : Option String)
    (bondingCurveId : Option String)
    (queryResult : Except String (List SuiEvent)) :
    Except String (List SuiEvent) :=
  if !(jsTruthy poolsPackageId) then
    .error "POOLS_PACKAGE_ID is not configured for fetching trade events."
  else
    match queryResult with
    | .error _ => .ok []
    | .ok eventsData =>
      .ok (if jsTruthy bondingCurveId then
            eventsData.filter
              (fun event => event.parsedJson.bonding_curve_id == bondingCurveId.getD "")
          else eventsData)

/-! ## `registerAsset`: dry-run gate -/

/-- The allow-list permission marker searched for in the dry-run error
text. -/
def permissionMarker : String := "::config::is_allowed"

/-- The distinguished not-authorized error message, naming the signer. -/
def notAuthorizedMessage (sender : String) : String :=
  "Permission check failed in factory config (config::is_allowed). The signer "
    ++ sender
    ++ " is not authorized to launch. Have the admin add your address to the allowlist or use an open factory."

/-- Outcome of the dry-run gate of `registerAsset`: one of the two thrown
errors, or fall-through to the real submission. -/
inductive RegisterPreflightOutcome where
  | notAuthorized (message : String)
  | preflightAbort (message : String)
  | proceed
  deriving DecidableEq, Repr

/-- Embedding of the dry-run classification in `registerAsset`
(lines 298-315 of `sui-blockchain.ts`): `status` and `error` are the
status string and optional error text extracted from the
`devInspectTransactionBlock` response. -/
def registerAssetPreflight (sender status : String) (error : Option String) :
    RegisterPreflightOutcome :=
  if status == "failure" then
    if jsTruthy error && containsSubstr (error.getD "") permissionMarker then
      .notAuthorized (notAuthorizedMessage sender)
    else
      .preflightAbort ("Move abort in preflight: "
        ++ (match error with | some e => e | none => "unknown error"))
  else
    .proceed

/-- Number of `signAndExecuteTransaction` calls performed by
`registerAsset` for a given dry-run response: the code throws (0 calls)
on either classified failure, and otherwise falls through to exactly one
submission of the transaction whose type argument is `coinType`.
`coinType` is carried into the transaction but never inspected by the
code. -/
def registerAssetSubmitCount (coinType sender status : String)
    (error : Option String) : Nat :=
  match coinType, registerAssetPreflight sender status error with
  | _, .proceed => 1
  | _, _ => 0

/-- Follows the spec text for the invariant on `PublishedToken.coinType`:
the on-chain type tag format `<32-byte-hex-package>::<module>::<STRUCT>`.
Splitting on `::` must give exactly three segments; the package is `0x`
followed by 64 hexadecimal digits; module and struct names are nonempty
identifiers over letters, digits and underscore not starting with a
digit. This definition is written from the spec wording, not from the
source: the source contains no such check. -/
def splitOnColons : List Char → List (List Char)
  | [] => [[]]
  | ':' :: ':' :: rest =>
    [] :: splitOnColons rest
  | c :: rest =>
    match splitOnColons rest with
    | [] => [[c]]
    | seg :: segs => (c :: seg) :: segs

/-- Hexadecimal digit test. -/
def isHexDigitChar (c : Char) : Bool :=
  (48 ≤ c.toNat && c.toNat ≤ 57)
    || (97 ≤ c.toNat && c.toNat ≤ 102)
    || (65 ≤ c.toNat && c.toNat ≤ 70)

/-- Identifier character test: letter, digit or underscore. -/
def isIdentChar (c : Char) : Bool :=
  (65 ≤ c.toNat && c.toNat ≤ 90)
    || (97 ≤ c.toNat && c.toNat ≤ 122)
    || (48 ≤ c.toNat && c.toNat ≤ 57)
    || c.toNat == 95

/-- Digit test on a character code. -/
def isDigitChar (c : Char) : Bool :=
  48 ≤ c.toNat && c.toNat ≤ 57

/-- Identifier segment: nonempty, identifier characters only, not
starting with a digit. -/
def isIdentSeg (seg : List Char) : Bool :=
  match seg with
  | [] => false
  | c :: _ => seg.all isIdentChar && !(isDigitChar c)

/-- Validity of an on-chain type tag, following the spec wording
`<32-byte-hex-package>::<module>::<STRUCT>`. -/
def isValidTypeTag (s : String) : Bool :=
  match splitOnColons s.data with
  | [pkg, moduleSeg, structSeg] =>
    (pkg.length == 66)
      && pkg.take 2 == ['0', 'x']
      && (pkg.drop 2).all isHexDigitChar
      && isIdentSeg moduleSeg
      && isIdentSeg structSeg
  | _ => false

/-! ## `publishIdolTokenPackage`: workspace cleanup -/

/-- Prefix test on strings, via their character lists. -/
def strHasPrefix (pre s : String) : Bool := pre.data.isPrefixOf s.data

/-- Effect of `fs.rmSync(dir, { recursive: true, force: true })` on the
set of existing paths: every path under `dir` (including `dir` itself)
disappears; `force` makes it a no-op on absent paths. -/
def rmRecursive (fs : List String) (dir : String) : List String :=
  fs.filter (fun p => !(strHasPrefix dir p))

/-- Exit state of one `publishIdolTokenPackage` invocation: the paths
existing afterwards and whether the call threw. -/
structure PublishFsOutcome where
  fs : List String
  threw : Bool
  deriving DecidableEq, Repr

/-- Filesystem trace of `publishIdolTokenPackage` (lines 169-253 of
`sui-blockchain.ts`). `fs0` is the set of paths existing beforehand,
`tmpDir` the fresh directory produced by `fs.mkdtempSync`; `compileOk`
states whether the `sui move build` invocation succeeds and `laterOk`
whether the publish transaction and object extraction after the
`try/catch/finally` succeed. The `catch` block removes the workspace and
rethrows; the `finally` block removes it again if it still exists; no
statement after the `finally` touches the filesystem. -/
def publishIdolTokenPackageFs (fs0 : List String) (tmpDir : String)
    (compileOk laterOk : Bool) : PublishFsOutcome :=
  let fs1 := tmpDir :: (tmpDir ++ "/sources")
    :: (tmpDir ++ "/sources/module.move") :: (tmpDir ++ "/Move.toml") :: fs0
  if compileOk then
    let fs2 := if fs1.contains tmpDir then rmRecursive fs1 tmpDir else fs1
    { fs := fs2, threw := !laterOk }
  else
    let fs2 := rmRecursive fs1 tmpDir
    let fs3 := if fs2.contains tmpDir then rmRecursive fs2 tmpDir else fs2
    { fs := fs3, threw := true }

/-! ## `publishIdolTokenPackage`: module and struct identifiers -/

/-- Decimal digit character for `n % 10`. -/
def digitChar (n : Nat) : Char := Char.ofNat (48 + n % 10)

/-- Decimal digit string of a natural number, most significant digit
first, as JavaScript renders `Date.now()` in a template literal. -/
def natDecDigits (n : Nat) : List Char :=
  if _h : n < 10 then [digitChar n]
  else natDecDigits (n / 10) ++ [digitChar (n % 10)]
decreasing_by exact Nat.div_lt_self (by omega) (by omega)

/-- Characters kept by the sanitization regex `[^a-zA-Z0-9_]` removal. -/
def isTickerKeptChar (c : Char) : Bool := isIdentChar c

/-- ASCII lower-casing of one character, the effect of `toLowerCase` on
the ASCII-only sanitized ticker. -/
def lowerChar (c : Char) : Char :=
  if 65 ≤ c.toNat && c.toNat ≤ 90 then Char.ofNat (c.toNat + 32) else c

/-- ASCII upper-casing of one character, the effect of `toUpperCase` on
the ASCII-only module name. -/
def upperChar (c : Char) : Char :=
  if 97 ≤ c.toNat && c.toNat ≤ 122 then Char.ofNat (c.toNat - 32) else c

/-- Embedding of `params.ticker.replace(/[^a-zA-Z0-9_]/g, '').toLowerCase()`. -/
def sanitizeTicker (ticker : String) : String :=
  String.mk ((ticker.data.filter isTickerKeptChar).map lowerChar)

/-- The generated module identifier
`idol_<sanitizedTicker>_<timestamp>` of `publishIdolTokenPackage`. -/
def moduleNameFor (ticker : String) (timestamp : Nat) : String :=
  "idol_" ++ sanitizeTicker ticker ++ "_" ++ String.mk (natDecDigits timestamp)

/-- The generated struct (type) identifier: the module identifier
upper-cased (`MODULE_NAME_UPPER`). -/
def structNameFor (ticker : String) (timestamp : Nat) : String :=
  String.mk ((moduleNameFor ticker timestamp).data.map upperChar)

/-- Character allowed in the generated module identifier: lower-case
letter, digit or underscore. -/
def isLowerIdChar (c : Char) : Bool :=
  (97 ≤ c.toNat && c.toNat ≤ 122)
    || (48 ≤ c.toNat && c.toNat ≤ 57)
    || c.toNat == 95

/-- Character allowed in the generated struct identifier: upper-case
letter, digit or underscore. -/
def isUpperIdChar (c : Char) : Bool :=
  (65 ≤ c.toNat && c.toNat ≤ 90)
    || (48 ≤ c.toNat && c.toNat ≤ 57)
    || c.toNat == 95

/-! ## `computeMarketCaps` -/

/-- One element of the `computeMarketCaps` result
(`IdolMarketCapResult` in `types.ts`): either the success record or the
per-asset error record. -/
inductive IdolMarketCapResult where
  | ok (coinType price circulatingSupply marketCap : String)
  | err (coinType error : String)
  deriving DecidableEq, Repr

/-- The coin type carried by a result element. -/
def IdolMarketCapResult.coinTypeOf : IdolMarketCapResult → String
  | .ok ct _ _ _ => ct
  | .err ct _ => ct

/-- Whether a result element is the per-asset error record. -/
def IdolMarketCapResult.isErr : IdolMarketCapResult → Bool
  | .ok _ _ _ _ => false
  | .err _ _ => true

/-- Nine-digit zero-padded decimal rendering of `n` (for `n < 10^9`),
most significant digit first: the fractional part produced by
`toFixed(9)`. -/
def padDigits9 (n : Nat) : String :=
  String.mk ((List.range 9).map (fun i => digitChar (n / 10 ^ (8 - i))))

/-- Embedding of JavaScript `x.toFixed(9)` on the nonnegative rationals
the service produces: round to 9 fractional digits (ties away from
zero, here ties up since inputs are nonnegative) and render with
exactly nine digits after the decimal point. -/
def jsToFixed9 (q : ℚ) : String :=
  let scaled : ℤ := jsRound (q * 1000000000)
  toString (scaled / 1000000000) ++ "." ++ padDigits9 (scaled % 1000000000).toNat

/-- Per-element body of `computeMarketCaps`: `getPrice` and `getSupply`
are the external adapters `getMarginalPriceForIdol` and
`getCurrentSupplyForIdol` (an `.error` models a thrown exception, which
the `catch` turns into the per-asset error record). -/
def computeMarketCapOne (getPrice getSupply : String → Except String String)
    (coinType : String) : IdolMarketCapResult :=
  match getPrice coinType with
  | .error e => .err coinType e
  | .ok priceString =>
    match getSupply coinType with
    | .error e => .err coinType e
    | .ok supplyString =>
      let priceInSui : ℚ := (parseDec priceString : ℚ) / 1000000000
      let circulatingSupply : ℚ := (parseDec supplyString : ℚ) / 1000000000
      let marketCapInSui : ℚ := priceInSui * circulatingSupply
      .ok coinType (jsToFixed9 priceInSui) (jsToFixed9 circulatingSupply)
        (jsToFixed9 marketCapInSui)

/-- Embedding of `SuiBlockchainService.computeMarketCaps`: every element
is processed independently and in order. -/
def computeMarketCaps (getPrice getSupply : String → Except String String)
    (coinTypes : List String) : List IdolMarketCapResult :=
  coinTypes.map (computeMarketCapOne getPrice getSupply)

/-! ## Helper lemmas -/

lemma char_toNat_ofNat (n : Nat) (h : n < 55296) : (Char.ofNat n).toNat = n := by
  unfold Char.ofNat
  rw [dif_pos (Or.inl h)]
  simp [Char.ofNatAux, Char.toNat, UInt32.toNat]

lemma digitChar_toNat (n : Nat) : (digitChar n).toNat = 48 + n % 10 := by
  have h : n % 10 < 10 := Nat.mod_lt _ (by omega)
  unfold digitChar
  rw [char_toNat_ofNat _ (by omega)]

lemma isDigitChar_digitChar (n : Nat) : isDigitChar (digitChar n) = true := by
  have h : n % 10 < 10 := Nat.mod_lt _ (by omega)
  simp [isDigitChar, digitChar_toNat]
  omega

lemma listIsPrefixOf_refl (l : List Char) : l.isPrefixOf l = true := by
  induction l with
  | nil => rfl
  | cons c t ih => simp [List.isPrefixOf, ih]

lemma strHasPrefix_refl (s : String) : strHasPrefix s s = true :=
  listIsPrefixOf_refl s.data

lemma not_mem_rmRecursive_self (fs : List String) (dir : String) :
    dir ∉ rmRecursive fs dir := by
  simp [rmRecursive, List.mem_filter, strHasPrefix_refl]

lemma not_mem_cleanup (fs : List String) (dir : String) :
    dir ∉ (if fs.contains dir then rmRecursive fs dir else fs) := by
  split_ifs with h
  · exact not_mem_rmRecursive_self _ _
  · intro hmem
    exact h (List.elem_eq_true_of_mem hmem)

/-! ## Claim C10 -/

/-- C10: `parseBondingCurveState` is total on every raw return payload:
a missing payload, an empty payload list, or an empty byte array yield
"Unknown" without error; a nonempty byte array yields exactly one of the
five state strings, determined solely by its first byte (0 Active,
1 Paused, 2 Completed, 3 Graduated, anything else Unknown). -/
theorem parseBondingCurveState_total_spec :
    (∀ raw : Option (List (List Nat × String)),
        parseBondingCurveState raw
          ∈ ["Active", "Paused", "Completed", "Graduated", "Unknown"])
    ∧ parseBondingCurveState none = "Unknown"
    ∧ parseBondingCurveState (some []) = "Unknown"
    ∧ (∀ ty rest, parseBondingCurveState (some (([], ty) :: rest)) = "Unknown")
    ∧ (∀ bs ty rest, parseBondingCurveState (some ((0 :: bs, ty) :: rest)) = "Active")
    ∧ (∀ bs ty rest, parseBondingCurveState (some ((1 :: bs, ty) :: rest)) = "Paused")
    ∧ (∀ bs ty rest, parseBondingCurveState (some ((2 :: bs, ty) :: rest)) = "Completed")
    ∧ (∀ bs ty rest, parseBondingCurveState (some ((3 :: bs, ty) :: rest)) = "Graduated")
    ∧ (∀ b bs ty rest,
        parseBondingCurveState (some (((b + 4) :: bs, ty) :: rest)) = "Unknown")
    ∧ (∀ b bs bs2 ty ty2 rest rest2,
        parseBondingCurveState (some ((b :: bs, ty) :: rest))
          = parseBondingCurveState (some ((b :: bs2, ty2) :: rest2))) := by
  refine ⟨?_, rfl, rfl, fun ty rest => rfl, fun bs ty rest => rfl, ?_, ?_, ?_, ?_, ?_⟩
  · intro raw
    rcases raw with _ | raw
    · simp [parseBondingCurveState]
    · rcases raw with _ | ⟨⟨bytes, ty⟩, rest⟩
      · simp [parseBondingCurveState]
      · rcases bytes with _ | ⟨b, bs⟩
        · simp [parseBondingCurveState]
        · simp only [parseBondingCurveState]
          split_ifs <;> simp
  · intro bs ty rest
    simp [parseBondingCurveState]
  · intro bs ty rest
    simp [parseBondingCurveState]
  · intro bs ty rest
    simp [parseBondingCurveState]
  · intro b bs ty rest
    have h0 : b + 4 ≠ 0 := by omega
    have h1 : b + 4 ≠ 1 := by omega
    have h2 : b + 4 ≠ 2 := by omega
    have h3 : b + 4 ≠ 3 := by omega
    simp [parseBondingCurveState, h0, h1, h2, h3]
  · intro b bs bs2 ty ty2 rest rest2
    simp only [parseBondingCurveState]

/-! ## Claim C9 -/

/-- C9: when `POOLS_PACKAGE_ID` is not configured, `getTradeEvents`
throws its configuration error before issuing any event query: the
result is this error (never the fail-soft empty list), and it does not
depend on what the query would have returned. -/
theorem getTradeEvents_missing_package_throws :
    ∀ (bondingCurveId : Option String) (q q2 : Except String (List SuiEvent)),
      getTradeEvents none bondingCurveId q
          = .error "POOLS_PACKAGE_ID is not configured for fetching trade events."
      ∧ (∀ l, getTradeEvents none bondingCurveId q ≠ .ok l)
      ∧ getTradeEvents none bondingCurveId q = getTradeEvents none bondingCurveId q2 := by
  intro bondingCurveId q q2
  refine ⟨rfl, ?_, rfl⟩
  intro l
  simp [getTradeEvents, jsTruthy]

/-! ## Claim C5 -/

/-- C5: on every exit path of `publishIdolTokenPackage` (compile success
with later success, compile success with a later exception, or compile
failure), the temporary build workspace directory does not exist once
the call returns or throws. -/
theorem publishIdolTokenPackage_tmpdir_cleanup :
    ∀ (fs0 : List String) (tmpDir : String) (compileOk laterOk : Bool),
      tmpDir ∉ (publishIdolTokenPackageFs fs0 tmpDir compileOk laterOk).fs := by
  intro fs0 tmpDir compileOk laterOk
  by_cases hc : compileOk = true
  · simp only [publishIdolTokenPackageFs, if_pos hc]
    exact not_mem_cleanup _ _
  · simp only [publishIdolTokenPackageFs, if_neg hc]
    exact not_mem_cleanup _ _

/-! ## Claim C8: identifier shape lemmas -/

lemma natDecDigits_all_lower (n : Nat) :
    (natDecDigits n).all isLowerIdChar = true := by
  induction n using Nat.strong_induction_on with
  | _ n ih =>
    unfold natDecDigits
    split
    · have h : n % 10 < 10 := Nat.mod_lt _ (by omega)
      simp [isLowerIdChar, digitChar_toNat]
      omega
    · rename_i h
      have h10 : n / 10 < n := Nat.div_lt_self (by omega) (by omega)
      have h2 : n % 10 < 10 := Nat.mod_lt _ (by omega)
      simp [List.all_append, ih _ h10, isLowerIdChar, digitChar_toNat]
      omega

lemma lowerChar_ok (c : Char) (h : isTickerKeptChar c = true) :
    isLowerIdChar (lowerChar c) = true := by
  unfold isTickerKeptChar isIdentChar at h
  unfold lowerChar
  by_cases hc : (65 ≤ c.toNat && c.toNat ≤ 90) = true
  · rw [if_pos hc]
    simp only [Bool.and_eq_true, decide_eq_true_eq] at hc
    have hlt : c.toNat + 32 < 55296 := by omega
    simp [isLowerIdChar, char_toNat_ofNat _ hlt]
    omega
  · rw [if_neg hc]
    simp only [Bool.or_eq_true, Bool.and_eq_true, decide_eq_true_eq, beq_iff_eq] at hc h
    simp [isLowerIdChar]
    omega

lemma upperChar_ok (c : Char) (h : isLowerIdChar c = true) :
    isUpperIdChar (upperChar c) = true := by
  unfold isLowerIdChar at h
  unfold upperChar
  by_cases hc : (97 ≤ c.toNat && c.toNat ≤ 122) = true
  · rw [if_pos hc]
    simp only [Bool.and_eq_true, decide_eq_true_eq] at hc
    have hlt : c.toNat - 32 < 55296 := by omega
    simp [isUpperIdChar, char_toNat_ofNat _ hlt]
    omega
  · rw [if_neg hc]
    simp only [Bool.or_eq_true, Bool.and_eq_true, decide_eq_true_eq, beq_iff_eq] at hc h
    simp [isUpperIdChar]
    omega

lemma sanitizeTicker_all_lower (ticker : String) :
    (sanitizeTicker ticker).data.all isLowerIdChar = true := by
  show ((ticker.data.filter isTickerKeptChar).map lowerChar).all isLowerIdChar = true
  rw [List.all_eq_true]
  intro c hc
  obtain ⟨c0, hc0, rfl⟩ := List.mem_map.mp hc
  exact lowerChar_ok c0 (List.mem_filter.mp hc0).2

lemma moduleNameFor_all_lower (ticker : String) (timestamp : Nat) :
    (moduleNameFor ticker timestamp).data.all isLowerIdChar = true := by
  have hid : ("idol_").data.all isLowerIdChar = true := by decide
  have hu : ("_").data.all isLowerIdChar = true := by decide
  have hs := sanitizeTicker_all_lower ticker
  have hn : (String.mk (natDecDigits timestamp)).data.all isLowerIdChar = true :=
    natDecDigits_all_lower timestamp
  simp only [moduleNameFor, String.data_append, List.all_append]
  simp [hid, hu, hs, hn]

/-- C8: the generated module identifier `idol_<sanitizedTicker>_<timestamp>`
consists only of lower-case letters, digits and underscores (the
sanitization strips every character outside `[A-Za-z0-9_]` from the
ticker and lower-cases the rest), and the generated struct (type) name is
the module identifier upper-cased, hence consists only of upper-case
letters, digits and underscores. -/
theorem moduleName_shape_spec :
    ∀ (ticker : String) (timestamp : Nat),
      (moduleNameFor ticker timestamp).data.all isLowerIdChar = true
      ∧ structNameFor ticker timestamp
          = String.mk ((moduleNameFor ticker timestamp).data.map upperChar)
      ∧ (structNameFor ticker timestamp).data.all isUpperIdChar = true := by
  intro ticker timestamp
  refine ⟨moduleNameFor_all_lower ticker timestamp, rfl, ?_⟩
  show (((moduleNameFor ticker timestamp).data.map upperChar)).all isUpperIdChar = true
  rw [List.all_eq_true]
  intro c hc
  obtain ⟨c0, hc0, rfl⟩ := List.mem_map.mp hc
  exact upperChar_ok c0 (List.all_eq_true.mp (moduleNameFor_all_lower ticker timestamp) c0 hc0)

/-! ## Claim C1 -/

lemma containsSubstr_ne_empty {e pat : String} (hpat : pat.data ≠ [])
    (h : containsSubstr e pat = true) : e ≠ "" := by
  intro he
  subst he
  simp only [containsSubstr, decide_eq_true_eq] at h
  exact hpat (List.sublist_nil.mp h.sublist)

/-- C1: classification of the `registerAsset` dry-run outcome. On a
failure status whose error text contains the permission marker
`::config::is_allowed`, the distinguished not-authorized error naming
the signer is raised; on a failure status without the marker (or with no
error text at all) the generic preflight-abort error carrying the raw
error text is raised; in both failure cases `signAndExecuteTransaction`
is never called; on any non-failure status the submission is performed
exactly once. -/
theorem registerAsset_dry_run_classification :
    ∀ (coinType sender status : String) (error : Option String),
      (∀ e, status = "failure" → error = some e →
          containsSubstr e permissionMarker = true →
          registerAssetPreflight sender status error
              = .notAuthorized (notAuthorizedMessage sender)
            ∧ containsSubstr (notAuthorizedMessage sender) sender = true
            ∧ registerAssetSubmitCount coinType sender status error = 0)
      ∧ (∀ e, status = "failure" → error = some e →
          containsSubstr e permissionMarker = false →
          registerAssetPreflight sender status error
              = .preflightAbort ("Move abort in preflight: " ++ e)
            ∧ registerAssetSubmitCount coinType sender status error = 0)
      ∧ (status = "failure" → error = none →
          registerAssetPreflight sender status error
              = .preflightAbort ("Move abort in preflight: " ++ "unknown error")
            ∧ registerAssetSubmitCount coinType sender status error = 0)
      ∧ (status ≠ "failure" →
          registerAssetPreflight sender status error = .proceed
            ∧ registerAssetSubmitCount coinType sender status error = 1) := by
  intro coinType sender status error
  refine ⟨?_, ?_, ?_, ?_⟩
  · intro e hs he hc
    subst hs
    subst he
    have hne : e ≠ "" := containsSubstr_ne_empty (by decide) hc
    have hpre : registerAssetPreflight sender "failure" (some e)
        = .notAuthorized (notAuthorizedMessage sender) := by
      simp [registerAssetPreflight, jsTruthy, hne, hc]
    refine ⟨hpre, ?_, ?_⟩
    · simp only [containsSubstr, notAuthorizedMessage, decide_eq_true_eq,
        String.data_append]
      refine ⟨("Permission check failed in factory config (config::is_allowed). The signer ").data,
        (" is not authorized to launch. Have the admin add your address to the allowlist or use an open factory.").data, ?_⟩
      simp
    · simp [registerAssetSubmitCount, hpre]
  · intro e hs he hc
    subst hs
    subst he
    have hpre : registerAssetPreflight sender "failure" (some e)
        = .preflightAbort ("Move abort in preflight: " ++ e) := by
      simp [registerAssetPreflight, jsTruthy, hc]
    exact ⟨hpre, by simp [registerAssetSubmitCount, hpre]⟩
  · intro hs he
    subst hs
    subst he
    have hpre : registerAssetPreflight sender "failure" none
        = .preflightAbort ("Move abort in preflight: " ++ "unknown error") := by
      simp [registerAssetPreflight, jsTruthy]
    exact ⟨hpre, by simp [registerAssetSubmitCount, hpre]⟩
  · intro hs
    have hpre : registerAssetPreflight sender status error = .proceed := by
      simp [registerAssetPreflight, hs]
    exact ⟨hpre, by simp [registerAssetSubmitCount, hpre]⟩

/-- Witness for C1 at a concrete dry-run failure carrying the permission
marker: the distinguished not-authorized outcome is produced and no
submission happens. -/
theorem registerAsset_dry_run_classification_witness :
    registerAssetPreflight "0xSIGNER" "failure" (some "abort ::config::is_allowed")
        = .notAuthorized (notAuthorizedMessage "0xSIGNER")
      ∧ registerAssetSubmitCount "0xPKG::idol_a::IDOL_A" "0xSIGNER" "failure"
          (some "abort ::config::is_allowed") = 0 := by
  have h := (registerAsset_dry_run_classification "0xPKG::idol_a::IDOL_A" "0xSIGNER"
    "failure" (some "abort ::config::is_allowed")).1
    "abort ::config::is_allowed" rfl rfl (by decide)
  exact ⟨h.1, h.2.2⟩

/-! ## Claim C4 -/

/-- Counterexample to C4 as stated: `registerAsset` contains no syntactic
validation of `PublishedToken.coinType`. For the malformed coin type
"not_a_type" (which does not match the required
`<32-byte-hex-package>::<module>::<STRUCT>` format), a dry-run response
with success status leads to exactly one real submission of the
transaction carrying that coin type: nothing in the repository's code
fails fast on the malformed format. -/
theorem registerAsset_no_coinType_validation_cex :
    isValidTypeTag "not_a_type" = false
      ∧ registerAssetSubmitCount "not_a_type" "0xSIGNER" "success" none = 1 := by
  exact ⟨by decide, rfl⟩

/-- C4 (amended): `registerAsset` never validates the coin type format
itself; the only gate before submission is the dry-run simulation.
Whenever the dry-run of the transaction carrying a coin type that fails
the type-tag format reports failure status (as a real ledger does for an
ill-formed type argument), no transaction is signed and executed. -/
theorem registerAsset_invalid_coinType_no_submit_on_dry_run_failure :
    ∀ (coinType sender : String) (error : Option String),
      isValidTypeTag coinType = false →
      registerAssetSubmitCount coinType sender "failure" error = 0 := by
  intro coinType sender error _hinvalid
  unfold registerAssetSubmitCount registerAssetPreflight
  by_cases hc : (jsTruthy error && containsSubstr (error.getD "") permissionMarker) = true
  · simp [hc]
  · simp [hc]

/-- Witness for the amended C4 at a concrete malformed coin type and a
failing dry-run. -/
theorem registerAsset_invalid_coinType_no_submit_witness :
    isValidTypeTag "0xBAD::module" = false
      ∧ registerAssetSubmitCount "0xBAD::module" "0xSIGNER" "failure" none = 0 := by
  refine ⟨by decide, ?_⟩
  exact registerAsset_invalid_coinType_no_submit_on_dry_run_failure
    "0xBAD::module" "0xSIGNER" none (by decide)

/-! ## Claim C7 -/

/-- A sample fetched event whose embedded curve id is "0xCURVE". -/
def sampleCurveEvent : SuiEvent :=
  ⟨{ is_buy := true, x_amount := "0", y_amount := "0",
     trader := "0xTRADER", bonding_curve_id := "0xCURVE" }⟩

/-- Counterexample to C7 as stated: when the supplied curve id is the
empty string (a supplied value that JavaScript treats as falsy), the
client-side filter is skipped entirely, and the returned sequence
contains an event whose embedded curve id differs from the supplied
id. -/
theorem getTradeEvents_curve_filter_cex :
    getTradeEvents (some "0xPKG") (some "") (.ok [sampleCurveEvent])
        = .ok [sampleCurveEvent]
      ∧ sampleCurveEvent.parsedJson.bonding_curve_id ≠ "" := by
  exact ⟨rfl, by decide⟩

/-- C7 (amended): with a configured pools package id, any failure of the
underlying event query yields the empty sequence instead of an error;
and whenever a nonempty curve id is supplied, the result is the
client-side filtered window: every returned event carries exactly the
supplied curve id, and the result is a subsequence of the fetched
window, hence no longer than it (and so possibly shorter than the
requested limit). A supplied empty-string curve id skips the filter. -/
theorem getTradeEvents_spec_amended :
    ∀ (ppid cid errText : String) (data : List SuiEvent),
      ppid ≠ "" →
      (getTradeEvents (some ppid) none (.error errText) = .ok []
        ∧ getTradeEvents (some ppid) (some cid) (.error errText) = .ok []
        ∧ (cid ≠ "" →
            ∃ res, getTradeEvents (some ppid) (some cid) (.ok data) = .ok res
              ∧ (∀ ev ∈ res, ev.parsedJson.bonding_curve_id = cid)
              ∧ res.Sublist data
              ∧ res.length ≤ data.length)) := by
  intro ppid cid errText data hp
  have hpt : jsTruthy (some ppid) = true := by simp [jsTruthy, hp]
  refine ⟨by simp [getTradeEvents, hpt], by simp [getTradeEvents, hpt], ?_⟩
  intro hc
  have hct : jsTruthy (some cid) = true := by simp [jsTruthy, hc]
  refine ⟨data.filter (fun event => event.parsedJson.bonding_curve_id == cid), ?_, ?_, ?_, ?_⟩
  · simp [getTradeEvents, hpt, hct]
  · intro ev hev
    have h2 := (List.mem_filter.mp hev).2
    simpa [beq_iff_eq] using h2
  · exact List.filter_sublist data
  · exact (List.filter_sublist data).length_le

/-- Witness for the amended C7 at a concrete configuration, a failing
query, and a window with one matching event. -/
theorem getTradeEvents_spec_amended_witness :
    getTradeEvents (some "0xPKG") none (.error "transient indexer error") = .ok []
      ∧ ∃ res, getTradeEvents (some "0xPKG") (some "0xCURVE") (.ok [sampleCurveEvent]) = .ok res
          ∧ (∀ ev ∈ res, ev.parsedJson.bonding_curve_id = "0xCURVE")
          ∧ res.Sublist [sampleCurveEvent]
          ∧ res.length ≤ [sampleCurveEvent].length := by
  have h := getTradeEvents_spec_amended "0xPKG" "0xCURVE" "transient indexer error"
    [sampleCurveEvent] (by decide)
  exact ⟨h.1, h.2.2 (by decide)⟩

/-! ## Claim C3 -/

lemma keys_updateBalance (bal : List (String × ℤ)) (k : String) (d : ℤ) :
    (updateBalance bal k d).map Prod.fst
      = if k ∈ bal.map Prod.fst then bal.map Prod.fst
        else bal.map Prod.fst ++ [k] := by
  induction bal with
  | nil => simp [updateBalance]
  | cons p rest ih =>
    obtain ⟨k0, v⟩ := p
    by_cases h : k0 = k
    · subst h
      simp [updateBalance]
    · simp only [updateBalance, if_neg h, List.map_cons, ih]
      by_cases hmem : k ∈ rest.map Prod.fst
      · simp [hmem, h, Ne.symm h]
      · simp [hmem, h, Ne.symm h]

lemma nodup_keys_updateBalance (bal : List (String × ℤ)) (k : String) (d : ℤ)
    (h : (bal.map Prod.fst).Nodup) :
    ((updateBalance bal k d).map Prod.fst).Nodup := by
  rw [keys_updateBalance]
  split_ifs with hmem
  · exact h
  · rw [List.nodup_append]
    exact ⟨h, List.nodup_singleton k, by
      intro a ha hb
      simp only [List.mem_singleton] at hb
      subst hb
      exact hmem ha⟩

lemma nodup_keys_foldl (l : List SuiEvent) :
    ∀ bal : List (String × ℤ), (bal.map Prod.fst).Nodup →
      ((l.foldl (fun b event => updateBalance b event.parsedJson.trader (eventDelta event)) bal).map
          Prod.fst).Nodup := by
  induction l with
  | nil => intro bal h; simpa using h
  | cons e t ih =>
    intro bal h
    exact ih _ (nodup_keys_updateBalance _ _ _ h)

lemma nodup_keys_replayBalances (events : List SuiEvent) :
    ((replayBalances events).map Prod.fst).Nodup :=
  nodup_keys_foldl events.reverse [] (by simp)

lemma lookupKey_some_mem (bal : List (String × ℤ)) (k : String) (v : ℤ)
    (h : lookupKey bal k = some v) : (k, v) ∈ bal := by
  induction bal with
  | nil => simp [lookupKey] at h
  | cons p rest ih =>
    obtain ⟨k0, v0⟩ := p
    by_cases hk : k0 = k
    · subst hk
      simp only [lookupKey, if_pos] at h
      injection h with h
      subst h
      exact List.mem_cons_self _ _
    · simp only [lookupKey, if_neg hk] at h
      exact List.mem_cons_of_mem _ (ih h)

lemma mem_nodup_lookupKey (bal : List (String × ℤ)) (k : String) (v : ℤ)
    (hmem : (k, v) ∈ bal) (hnd : (bal.map Prod.fst).Nodup) :
    lookupKey bal k = some v := by
  induction bal with
  | nil => simp at hmem
  | cons p rest ih =>
    obtain ⟨k0, v0⟩ := p
    rcases List.mem_cons.mp hmem with heq | htail
    · obtain ⟨h1, h2⟩ := Prod.mk.injEq .. ▸ heq
      subst h1
      subst h2
      simp [lookupKey]
    · have hk : k0 ≠ k := by
        intro hkk
        subst hkk
        have : k0 ∈ rest.map Prod.fst :=
          List.mem_map.mpr ⟨(k0, v), htail, rfl⟩
        exact (List.nodup_cons.mp hnd).1 this
      simp only [lookupKey, if_neg hk]
      exact ih htail (List.nodup_cons.mp hnd).2

lemma nodup_keys_filter (bal : List (String × ℤ)) (p : String × ℤ → Bool)
    (hnd : (bal.map Prod.fst).Nodup) :
    ((bal.filter p).map Prod.fst).Nodup :=
  ((List.filter_sublist bal).map Prod.fst).nodup hnd

/-- C3: `calculateHolders` replays the reversed (chronological) event
sequence, crediting `y_amount` to the trader on a buy and debiting it on
a sell, and returns exactly the traders with strictly positive final
balance, each mapped to that balance; a trader whose net balance is zero
or negative is absent. On the chronological sequence
buy(A,100), sell(A,40), buy(B,10) the result is exactly A -> 60,
B -> 10. -/
theorem calculateHolders_spec :
    (∀ (events : List SuiEvent) (k : String) (b : ℤ),
        lookupKey (calculateHolders events) k = some b ↔
          lookupKey (replayBalances events) k = some b ∧ 0 < b)
    ∧ (∀ (events : List SuiEvent) (k : String) (b : ℤ),
        lookupKey (replayBalances events) k = some b → b ≤ 0 →
          lookupKey (calculateHolders events) k = none)
    ∧ calculateHolders
        ([⟨{ is_buy := true, x_amount := "0", y_amount := "100",
             trader := "A", bonding_curve_id := "c" }⟩,
          ⟨{ is_buy := false, x_amount := "0", y_amount := "40",
             trader := "A", bonding_curve_id := "c" }⟩,
          ⟨{ is_buy := true, x_amount := "0", y_amount := "10",
             trader := "B", bonding_curve_id := "c" }⟩].reverse)
        = [("A", 60), ("B", 10)] := by
  have hiff : ∀ (events : List SuiEvent) (k : String) (b : ℤ),
      lookupKey (calculateHolders events) k = some b ↔
        lookupKey (replayBalances events) k = some b ∧ 0 < b := by
    intro events k b
    have hnd := nodup_keys_replayBalances events
    have hndf := nodup_keys_filter (replayBalances events)
      (fun p => 0 < p.2) hnd
    constructor
    · intro h
      have hmemf := lookupKey_some_mem _ _ _ h
      have hmem := List.mem_filter.mp hmemf
      refine ⟨mem_nodup_lookupKey _ _ _ hmem.1 hnd, ?_⟩
      simpa using hmem.2
    · rintro ⟨hb, hpos⟩
      have hmem := lookupKey_some_mem _ _ _ hb
      have hmemf : (k, b) ∈ calculateHolders events :=
        List.mem_filter.mpr ⟨hmem, by simpa using hpos⟩
      exact mem_nodup_lookupKey _ _ _ hmemf hndf
  refine ⟨hiff, ?_, by decide⟩
  intro events k b hb hnp
  cases hres : lookupKey (calculateHolders events) k with
  | none => rfl
  | some v =>
    have hv := (hiff events k v).mp hres
    rw [hb] at hv
    have : b = v := by
      have := hv.1
      exact Option.some.injEq .. ▸ this
    omega

/-- Witness for C3: a net-zero trader Z (buy 5 then sell 5) and a
net-negative trader N (sell 7) are both absent from the holder map. -/
theorem calculateHolders_spec_witness :
    lookupKey (calculateHolders
        [⟨{ is_buy := false, x_amount := "0", y_amount := "5",
            trader := "Z", bonding_curve_id := "c" }⟩,
         ⟨{ is_buy := true, x_amount := "0", y_amount := "5",
            trader := "Z", bonding_curve_id := "c" }⟩]) "Z" = none
      ∧ lookupKey (calculateHolders
          [⟨{ is_buy := false, x_amount := "0", y_amount := "7",
              trader := "N", bonding_curve_id := "c" }⟩]) "N" = none := by
  constructor
  · exact calculateHolders_spec.2.1 _ "Z" 0 (by decide) (by decide)
  · exact calculateHolders_spec.2.1 _ "N" (-7) (by decide) (by decide)

/-! ## Claim C2 -/

/-- Sample event: a buy of base amount 2 000 000 000. -/
def evBuy2000 : SuiEvent :=
  ⟨{ is_buy := true, x_amount := "2000000000", y_amount := "0",
     trader := "T", bonding_curve_id := "c" }⟩

/-- Sample event: a buy of base amount 1 500 000 000. -/
def evBuy1500 : SuiEvent :=
  ⟨{ is_buy := true, x_amount := "1500000000", y_amount := "0",
     trader := "T", bonding_curve_id := "c" }⟩

/-- Sample event: a sell of base amount 500 000 000. -/
def evSell500 : SuiEvent :=
  ⟨{ is_buy := false, x_amount := "500000000", y_amount := "0",
     trader := "T", bonding_curve_id := "c" }⟩

lemma jsRound_intCast (n : ℤ) : jsRound (n : ℚ) = n := by
  unfold jsRound
  rw [Int.floor_int_add]
  rw [show ⌊(1/2 : ℚ)⌋ = 0 from Int.floor_eq_iff.mpr (by norm_num)]
  omega

lemma round6_eval (q : ℚ) (n : ℤ) (h : q * 1000000 = (n : ℚ)) :
    round6 q = (n : ℚ) / 1000000 := by
  unfold round6
  rw [h, jsRound_intCast]

lemma foldl_volumeStep (l : List SuiEvent) :
    ∀ a b c : ℚ,
      l.foldl volumeStep (a, b, c)
        = (a + (l.map humanVol).sum,
           b + ((l.filter (fun event => event.parsedJson.is_buy)).map humanVol).sum,
           c + ((l.filter (fun event => !event.parsedJson.is_buy)).map humanVol).sum) := by
  induction l with
  | nil => intro a b c; simp
  | cons e t ih =>
    intro a b c
    by_cases hb : e.parsedJson.is_buy = true
    · have h1 : List.filter (fun event => event.parsedJson.is_buy) (e :: t)
          = e :: List.filter (fun event => event.parsedJson.is_buy) t := by
        simp [List.filter_cons, hb]
      have h2 : List.filter (fun event => !event.parsedJson.is_buy) (e :: t)
          = List.filter (fun event => !event.parsedJson.is_buy) t := by
        simp [List.filter_cons, hb]
      simp only [List.foldl_cons, volumeStep, hb, if_true, ih, h1, h2,
        List.map_cons, List.sum_cons, Prod.mk.injEq]
      refine ⟨by ring_nf, by ring_nf, by ring_nf⟩
    · have hb2 : e.parsedJson.is_buy = false := by
        revert hb
        cases e.parsedJson.is_buy <;> simp
      have h1 : List.filter (fun event => event.parsedJson.is_buy) (e :: t)
          = List.filter (fun event => event.parsedJson.is_buy) t := by
        simp [List.filter_cons, hb2]
      have h2 : List.filter (fun event => !event.parsedJson.is_buy) (e :: t)
          = e :: List.filter (fun event => !event.parsedJson.is_buy) t := by
        simp [List.filter_cons, hb2]
      simp only [List.foldl_cons, volumeStep, hb2, Bool.false_eq_true, if_false, ih, h1, h2,
        List.map_cons, List.sum_cons, Prod.mk.injEq]
      refine ⟨by ring_nf, by ring_nf, by ring_nf⟩

lemma volumeTotals_eq (l : List SuiEvent) :
    volumeTotals l
      = ((l.map humanVol).sum,
         ((l.filter (fun event => event.parsedJson.is_buy)).map humanVol).sum,
         ((l.filter (fun event => !event.parsedJson.is_buy)).map humanVol).sum) := by
  unfold volumeTotals
  rw [foldl_volumeStep]
  simp

/-- C2: `calculateVolume` scales each event's `x_amount` by 10^9,
accumulates it into the buy or sell total (and the grand total) per the
`is_buy` flag, rounds the three final totals to 6 fractional digits, and
reports the number of input events; in particular the empty list gives
all zeros, a single buy of 2 000 000 000 gives total = buy = 2 and
sell = 0 with count 1, and a buy of 1 500 000 000 with a sell of
500 000 000 gives total 2, buy 1.5, sell 0.5. -/
theorem calculateVolume_spec :
    (∀ events : List SuiEvent,
        (calculateVolume events).totalVolume
            = round6 ((events.map humanVol).sum)
          ∧ (calculateVolume events).buyVolume
            = round6 (((events.filter (fun event => event.parsedJson.is_buy)).map humanVol).sum)
          ∧ (calculateVolume events).sellVolume
            = round6 (((events.filter (fun event => !event.parsedJson.is_buy)).map humanVol).sum)
          ∧ (calculateVolume events).transactionCount = events.length)
    ∧ ((calculateVolume []).totalVolume = 0 ∧ (calculateVolume []).buyVolume = 0
        ∧ (calculateVolume []).sellVolume = 0 ∧ (calculateVolume []).transactionCount = 0)
    ∧ ((calculateVolume [evBuy2000]).totalVolume = 2
        ∧ (calculateVolume [evBuy2000]).buyVolume = 2
        ∧ (calculateVolume [evBuy2000]).sellVolume = 0
        ∧ (calculateVolume [evBuy2000]).transactionCount = 1)
    ∧ ((calculateVolume [evBuy1500, evSell500]).totalVolume = 2
        ∧ (calculateVolume [evBuy1500, evSell500]).buyVolume = 3/2
        ∧ (calculateVolume [evBuy1500, evSell500]).sellVolume = 1/2) := by
  have hgen : ∀ events : List SuiEvent,
      (calculateVolume events).totalVolume
          = round6 ((events.map humanVol).sum)
        ∧ (calculateVolume events).buyVolume
          = round6 (((events.filter (fun event => event.parsedJson.is_buy)).map humanVol).sum)
        ∧ (calculateVolume events).sellVolume
          = round6 (((events.filter (fun event => !event.parsedJson.is_buy)).map humanVol).sum)
        ∧ (calculateVolume events).transactionCount = events.length := by
    intro events
    simp [calculateVolume, volumeTotals_eq]
  have round6_zero : round6 (0 : ℚ) = 0 := by
    rw [round6_eval 0 0 (by norm_num)]
    norm_num
  have round6_two : round6 (2 : ℚ) = 2 := by
    rw [round6_eval 2 2000000 (by norm_num)]
    norm_num
  have round6_th : round6 ((3 : ℚ)/2) = 3/2 := by
    rw [round6_eval (3/2) 1500000 (by norm_num)]
    norm_num
  have round6_h : round6 ((1 : ℚ)/2) = 1/2 := by
    rw [round6_eval (1/2) 500000 (by norm_num)]
    norm_num
  have hv2 : humanVol evBuy2000 = 2 := by
    rw [humanVol, show parseDec evBuy2000.parsedJson.x_amount = 2000000000 from by decide]
    norm_num
  have hv15 : humanVol evBuy1500 = 3/2 := by
    rw [humanVol, show parseDec evBuy1500.parsedJson.x_amount = 1500000000 from by decide]
    norm_num
  have hv05 : humanVol evSell500 = 1/2 := by
    rw [humanVol, show parseDec evSell500.parsedJson.x_amount = 500000000 from by decide]
    norm_num
  have hb2 : evBuy2000.parsedJson.is_buy = true := rfl
  have hb15 : evBuy1500.parsedJson.is_buy = true := rfl
  have hb05 : evSell500.parsedJson.is_buy = false := rfl
  refine ⟨hgen, ?_, ?_, ?_⟩
  · obtain ⟨h1, h2, h3, h4⟩ := hgen []
    exact ⟨by rw [h1]; simpa using round6_zero,
      by rw [h2]; simpa using round6_zero,
      by rw [h3]; simpa using round6_zero, h4⟩
  · obtain ⟨h1, h2, h3, h4⟩ := hgen [evBuy2000]
    refine ⟨?_, ?_, ?_, by simpa using h4⟩
    · rw [h1]
      simp only [List.map_cons, List.map_nil, List.sum_cons, List.sum_nil, hv2, add_zero]
      exact round6_two
    · rw [h2]
      simp only [List.filter_cons, hb2, List.filter_nil, if_true, List.map_cons,
        List.map_nil, List.sum_cons, List.sum_nil, hv2, add_zero]
      exact round6_two
    · rw [h3]
      simp only [List.filter_cons, hb2, Bool.not_true, Bool.false_eq_true, if_false,
        List.filter_nil, List.map_nil, List.sum_nil]
      exact round6_zero
  · obtain ⟨h1, h2, h3, _h4⟩ := hgen [evBuy1500, evSell500]
    refine ⟨?_, ?_, ?_⟩
    · rw [h1]
      simp only [List.map_cons, List.map_nil, List.sum_cons, List.sum_nil, hv15, hv05, add_zero]
      rw [show (3 : ℚ)/2 + 1/2 = 2 by norm_num]
      exact round6_two
    · rw [h2]
      simp only [List.filter_cons, hb15, hb05, if_true, Bool.false_eq_true, if_false,
        List.filter_nil, List.map_cons, List.map_nil, List.sum_cons, List.sum_nil, hv15, add_zero]
      exact round6_th
    · rw [h3]
      simp only [List.filter_cons, hb15, hb05, Bool.not_true, Bool.not_false,
        Bool.false_eq_true, if_false, if_true, List.filter_nil, List.map_cons, List.map_nil,
        List.sum_cons, List.sum_nil, hv05, add_zero]
      exact round6_h

/-! ## Claim C6 -/

lemma padDigits9_length (n : Nat) : (padDigits9 n).length = 9 := rfl

lemma padDigits9_all_digits (n : Nat) : (padDigits9 n).data.all isDigitChar = true := by
  show ((List.range 9).map (fun i => digitChar (n / 10 ^ (8 - i)))).all isDigitChar = true
  rw [List.all_eq_true]
  intro c hc
  obtain ⟨i, _, rfl⟩ := List.mem_map.mp hc
  exact isDigitChar_digitChar _

/-- C6: `computeMarketCaps` yields exactly one output element per input
element, in input order, each carrying its input coin type; every
element is computed independently from its own coin type alone, so a
failing element never prevents or alters the others; a failure of the
price or supply adapter yields the per-asset error record carrying the
error message; on success the element carries price, circulating supply
and market cap rendered with exactly nine fractional decimal digits. -/
theorem computeMarketCaps_spec :
    (∀ (getPrice getSupply : String → Except String String) (coinTypes : List String),
        (computeMarketCaps getPrice getSupply coinTypes).length = coinTypes.length)
    ∧ (∀ (getPrice getSupply : String → Except String String) (coinTypes : List String)
        (i : Nat),
        (computeMarketCaps getPrice getSupply coinTypes)[i]?
          = (coinTypes[i]?).map (computeMarketCapOne getPrice getSupply))
    ∧ (∀ (getPrice getSupply : String → Except String String) (ct : String),
        (computeMarketCapOne getPrice getSupply ct).coinTypeOf = ct)
    ∧ (∀ (getPrice getSupply : String → Except String String) (ct e : String),
        getPrice ct = .error e →
          computeMarketCapOne getPrice getSupply ct = .err ct e)
    ∧ (∀ (getPrice getSupply : String → Except String String) (ct p e : String),
        getPrice ct = .ok p → getSupply ct = .error e →
          computeMarketCapOne getPrice getSupply ct = .err ct e)
    ∧ (∀ (getPrice getSupply : String → Except String String) (ct p s : String),
        getPrice ct = .ok p → getSupply ct = .ok s →
          computeMarketCapOne getPrice getSupply ct
            = .ok ct (jsToFixed9 ((parseDec p : ℚ) / 1000000000))
                (jsToFixed9 ((parseDec s : ℚ) / 1000000000))
                (jsToFixed9 (((parseDec p : ℚ) / 1000000000)
                  * ((parseDec s : ℚ) / 1000000000))))
    ∧ (∀ q : ℚ, ∃ intPart fracPart,
        jsToFixed9 q = intPart ++ "." ++ fracPart
          ∧ fracPart.length = 9 ∧ fracPart.data.all isDigitChar = true) := by
  refine ⟨?_, ?_, ?_, ?_, ?_, ?_, ?_⟩
  · intro getPrice getSupply coinTypes
    simp [computeMarketCaps]
  · intro getPrice getSupply coinTypes i
    simp [computeMarketCaps, List.getElem?_map]
  · intro getPrice getSupply ct
    unfold computeMarketCapOne
    cases h1 : getPrice ct with
    | error e => simp [IdolMarketCapResult.coinTypeOf]
    | ok p =>
      cases h2 : getSupply ct with
      | error e => simp [IdolMarketCapResult.coinTypeOf]
      | ok s => simp [IdolMarketCapResult.coinTypeOf]
  · intro getPrice getSupply ct e h
    simp [computeMarketCapOne, h]
  · intro getPrice getSupply ct p e h1 h2
    simp [computeMarketCapOne, h1, h2]
  · intro getPrice getSupply ct p s h1 h2
    simp [computeMarketCapOne, h1, h2]
  · intro q
    exact ⟨toString (jsRound (q * 1000000000) / 1000000000),
      padDigits9 (jsRound (q * 1000000000) % 1000000000).toNat,
      rfl, padDigits9_length _, padDigits9_all_digits _⟩

/-- Witness for C6 at concrete adapters: the asset whose price adapter
throws gets the per-asset error record, and an asset whose adapters
succeed gets the success record, independently of the failing one. -/
theorem computeMarketCaps_spec_witness :
    computeMarketCapOne
        (fun ct => if ct == "0xBAD::t::T" then .error "boom" else .ok "2000000000")
        (fun _ => .ok "3000000000") "0xBAD::t::T"
      = .err "0xBAD::t::T" "boom"
    ∧ computeMarketCapOne
        (fun ct => if ct == "0xBAD::t::T" then .error "boom" else .ok "2000000000")
        (fun _ => .ok "3000000000") "0xGOOD::t::T"
      = .ok "0xGOOD::t::T" (jsToFixed9 ((parseDec "2000000000" : ℚ) / 1000000000))
          (jsToFixed9 ((parseDec "3000000000" : ℚ) / 1000000000))
          (jsToFixed9 (((parseDec "2000000000" : ℚ) / 1000000000)
            * ((parseDec "3000000000" : ℚ) / 1000000000))) := by
  constructor
  · exact computeMarketCaps_spec.2.2.2.1 _ _ "0xBAD::t::T" "boom" rfl
  · exact computeMarketCaps_spec.2.2.2.2.2.1 _ _ "0xGOOD::t::T"
      "2000000000" "3000000000" rfl rfl
